import Mathlib

/-!
Verification of the local-first synchronization logic of a journaling
application, shallowly embedded in Lean 4.

The embedding covers:
* the local SQLite table of journal entries and the reports table,
* the pull-all merge routine (src/database/sync.ts, pullAllEntries),
* the journal service operations createEntry / updateEntry / deleteEntry
  (src/database/journalService.ts),
* the sign-in reconciliation effect and the once-per-user marker of
  AuthProvider, and its signOut routine,
* the settings and journal Redux reducers touched by signOut,
* the generateAIReport wrapper (src/services/backend.ts).

JavaScript date parsing (new Date(s).getTime(), NaN when unparseable) is
modelled by an arbitrary parse function of type String → Option Int,
universally quantified in the theorems; a concrete digit-string stand-in
isoTimestampVal is used to instantiate witnesses on fixed-format ISO
timestamps, where digit concatenation is chronological.
-/

/-- A row of the local journal_entries table (src/database/schema.ts). -/
structure JournalEntry where
  id : Nat
  title : String
  content : String
  date : String
  created_at : String
  updated_at : String
deriving DecidableEq, Repr

/-- A remote row as selected by pullAllEntries from the hosted backend:
client_id, title, content, date, created_at, updated_at. -/
structure RemoteEntry where
  client_id : Nat
  title : String
  content : String
  date : String
  created_at : String
  updated_at : String
deriving DecidableEq, Repr

/-- The local row inserted verbatim from a remote record
(INSERT with id := client_id and the remote fields). -/
def toLocalEntry (r : RemoteEntry) : JournalEntry :=
  { id := r.client_id, title := r.title, content := r.content,
    date := r.date, created_at := r.created_at, updated_at := r.updated_at }

/-- SELECT ... FROM journal_entries WHERE id = ? (first matching row). -/
def findEntry (db : List JournalEntry) (i : Nat) : Option JournalEntry :=
  db.find? (fun e => e.id == i)

/-- The overwrite performed by pullAllEntries:
UPDATE journal_entries SET title, content, date, created_at, updated_at
WHERE id = client_id. -/
def overwriteFromRemote (e : JournalEntry) (r : RemoteEntry) : JournalEntry :=
  { e with title := r.title, content := r.content, date := r.date,
           created_at := r.created_at, updated_at := r.updated_at }

/-- Apply the UPDATE statement to every row whose id matches the client id. -/
def applyRemoteUpdate (db : List JournalEntry) (r : RemoteEntry) : List JournalEntry :=
  db.map (fun e => if e.id == r.client_id then overwriteFromRemote e r else e)

/-- The overwrite guard of pullAllEntries:
isFinite(localTs) && isFinite(remoteTs) && remoteTs > localTs,
where a timestamp that fails to parse gives NaN (here: none). -/
def tsNewer (parse : String → Option Int) (localTs remoteTs : String) : Bool :=
  match parse localTs, parse remoteTs with
  | some l, some r => decide (l < r)
  | _, _ => false

/-- One iteration of the pullAllEntries loop on a single remote record:
returns the new local table and the (inserted, updated) deltas. -/
def mergeRemote (parse : String → Option Int) (db : List JournalEntry)
    (r : RemoteEntry) : List JournalEntry × Nat × Nat :=
  match findEntry db r.client_id with
  | none => (db ++ [toLocalEntry r], 1, 0)
  | some localRow =>
    if tsNewer parse localRow.updated_at r.updated_at then
      (applyRemoteUpdate db r, 0, 1)
    else
      (db, 0, 0)

/-- pullAllEntries (src/database/sync.ts): fold the merge over the remote
rows in order, accumulating the inserted and updated counters. -/
def pullAllEntries (parse : String → Option Int) (rows : List RemoteEntry)
    (db : List JournalEntry) : List JournalEntry × Nat × Nat :=
  match rows with
  | [] => (db, 0, 0)
  | r :: rest =>
    let s1 := mergeRemote parse db r
    let s2 := pullAllEntries parse rest s1.1
    (s2.1, s1.2.1 + s2.2.1, s1.2.2 + s2.2.2)

/-- Concrete stand-in for JavaScript date parsing, used to instantiate the
universally quantified parse function on fixed-format ISO timestamps: the
concatenated digits of the string read as an integer (chronological on a
fixed format); none when the string holds no digit (NaN). -/
def isoTimestampVal (s : String) : Option Int :=
  let ds := s.toList.filter Char.isDigit
  if ds.isEmpty then none
  else some (Int.ofNat (ds.foldl (fun a c => a * 10 + (c.toNat - 48)) 0))

/-- A remote row is stable against a local table when a local row with its
client id exists and the overwrite guard rejects it. After a pull pass every
processed remote row is stable, which yields idempotence. -/
def stableRow (parse : String → Option Int) (db : List JournalEntry)
    (r : RemoteEntry) : Prop :=
  ∃ e, findEntry db r.client_id = some e ∧
    tsNewer parse e.updated_at r.updated_at = false

theorem tsNewer_self (parse : String → Option Int) (u : String) :
    tsNewer parse u u = false := by
  unfold tsNewer
  cases parse u with
  | none => rfl
  | some v => simp

theorem overwriteFromRemote_id (e : JournalEntry) (r : RemoteEntry) :
    (overwriteFromRemote e r).id = e.id := rfl

theorem tsNewer_true_iff (parse : String → Option Int) (l r : String) :
    tsNewer parse l r = true ↔
      ∃ lv rv, parse l = some lv ∧ parse r = some rv ∧ lv < rv := by
  unfold tsNewer
  cases parse l <;> cases parse r <;> simp

theorem findEntry_append_of_found (db : List JournalEntry) (i : Nat)
    (e : JournalEntry) (h : findEntry db i = some e) (x : JournalEntry) :
    findEntry (db ++ [x]) i = some e := by
  unfold findEntry at h ⊢
  rw [List.find?_append, h]
  rfl

theorem comp_applyRemoteUpdate_id (s : RemoteEntry) (i : Nat) :
    ((fun e : JournalEntry => e.id == i) ∘
      fun e : JournalEntry =>
        if e.id == s.client_id then overwriteFromRemote e s else e) =
      fun e : JournalEntry => e.id == i := by
  funext e
  by_cases hc : (e.id == s.client_id) = true
  · simp [Function.comp, hc, overwriteFromRemote]
  · simp [Function.comp, hc]

theorem findEntry_applyRemoteUpdate_ne (db : List JournalEntry)
    (s : RemoteEntry) (i : Nat) (h : i ≠ s.client_id) :
    findEntry (applyRemoteUpdate db s) i = findEntry db i := by
  unfold findEntry applyRemoteUpdate
  rw [List.find?_map, comp_applyRemoteUpdate_id s i]
  cases hf : db.find? (fun e => e.id == i) with
  | none => rfl
  | some e =>
    have he : e.id = i := by simpa using List.find?_some hf
    have hne : (e.id == s.client_id) = false := by
      rw [he]
      simpa using h
    simp [Option.map, hne]

theorem findEntry_applyRemoteUpdate_eq (db : List JournalEntry)
    (s : RemoteEntry) :
    findEntry (applyRemoteUpdate db s) s.client_id =
      Option.map (fun e => overwriteFromRemote e s) (findEntry db s.client_id) := by
  unfold findEntry applyRemoteUpdate
  rw [List.find?_map, comp_applyRemoteUpdate_id s s.client_id]
  cases hf : db.find? (fun e => e.id == s.client_id) with
  | none => rfl
  | some e =>
    have he : e.id = s.client_id := by simpa using List.find?_some hf
    simp [Option.map, he]

/-- A stable remote row is left untouched by the merge. -/
theorem mergeRemote_of_stable (parse : String → Option Int)
    (db : List JournalEntry) (r : RemoteEntry)
    (h : stableRow parse db r) : mergeRemote parse db r = (db, 0, 0) := by
  obtain ⟨e, he, hguard⟩ := h
  simp [mergeRemote, he, hguard]

theorem mergeRemote_fst_of_none (parse : String → Option Int)
    (db : List JournalEntry) (r : RemoteEntry)
    (hf : findEntry db r.client_id = none) :
    (mergeRemote parse db r).1 = db ++ [toLocalEntry r] := by
  simp [mergeRemote, hf]

theorem mergeRemote_fst_of_newer (parse : String → Option Int)
    (db : List JournalEntry) (r : RemoteEntry) (e : JournalEntry)
    (hf : findEntry db r.client_id = some e)
    (hg : tsNewer parse e.updated_at r.updated_at = true) :
    (mergeRemote parse db r).1 = applyRemoteUpdate db r := by
  simp [mergeRemote, hf, hg]

theorem mergeRemote_fst_of_stale (parse : String → Option Int)
    (db : List JournalEntry) (r : RemoteEntry) (e : JournalEntry)
    (hf : findEntry db r.client_id = some e)
    (hg : tsNewer parse e.updated_at r.updated_at = false) :
    (mergeRemote parse db r).1 = db := by
  simp [mergeRemote, hf, hg]

/-- After merging a remote row, that row is stable. -/
theorem stableRow_mergeRemote_self (parse : String → Option Int)
    (db : List JournalEntry) (r : RemoteEntry) :
    stableRow parse (mergeRemote parse db r).1 r := by
  cases hf : findEntry db r.client_id with
  | none =>
    rw [mergeRemote_fst_of_none parse db r hf]
    refine ⟨toLocalEntry r, ?_, tsNewer_self parse r.updated_at⟩
    unfold findEntry at hf ⊢
    rw [List.find?_append, hf]
    simp [toLocalEntry]
  | some e =>
    cases hg : tsNewer parse e.updated_at r.updated_at with
    | true =>
      rw [mergeRemote_fst_of_newer parse db r e hf hg]
      refine ⟨overwriteFromRemote e r, ?_, tsNewer_self parse r.updated_at⟩
      rw [findEntry_applyRemoteUpdate_eq db r, hf]
      rfl
    | false =>
      rw [mergeRemote_fst_of_stale parse db r e hf hg]
      exact ⟨e, hf, hg⟩

/-- Merging any remote row preserves the stability of every stable row. -/
theorem stableRow_mergeRemote_preserved (parse : String → Option Int)
    (db : List JournalEntry) (r s : RemoteEntry)
    (h : stableRow parse db r) :
    stableRow parse (mergeRemote parse db s).1 r := by
  obtain ⟨e, he, hguard⟩ := h
  cases hf : findEntry db s.client_id with
  | none =>
    rw [mergeRemote_fst_of_none parse db s hf]
    exact ⟨e, findEntry_append_of_found db r.client_id e he (toLocalEntry s), hguard⟩
  | some es =>
    cases hg : tsNewer parse es.updated_at s.updated_at with
    | true =>
      rw [mergeRemote_fst_of_newer parse db s es hf hg]
      by_cases hid : r.client_id = s.client_id
      · have hee : es = e := by
          rw [hid] at he
          exact Option.some.inj (hf.symm.trans he)
        subst hee
        refine ⟨overwriteFromRemote es s, ?_, ?_⟩
        · rw [hid, findEntry_applyRemoteUpdate_eq db s, hf]
          rfl
        · show tsNewer parse s.updated_at r.updated_at = false
          rcases (tsNewer_true_iff parse es.updated_at s.updated_at).mp hg with
            ⟨le, ls, hle, hls, hlels⟩
          rw [Bool.eq_false_iff]
          intro htrue
          rcases (tsNewer_true_iff parse s.updated_at r.updated_at).mp htrue with
            ⟨ls2, lr, hls2, hlr, hlslr⟩
          obtain rfl : ls = ls2 := Option.some.inj (hls.symm.trans hls2)
          exact (Bool.eq_false_iff.mp hguard)
            ((tsNewer_true_iff parse es.updated_at r.updated_at).mpr
              ⟨le, lr, hle, hlr, lt_trans hlels hlslr⟩)
      · refine ⟨e, ?_, hguard⟩
        rw [findEntry_applyRemoteUpdate_ne db s r.client_id hid]
        exact he
    | false =>
      rw [mergeRemote_fst_of_stale parse db s es hf hg]
      exact ⟨e, he, hguard⟩

/-- A pull pass preserves the stability of every stable row. -/
theorem stableRow_pull_preserved (parse : String → Option Int)
    (rows : List RemoteEntry) :
    ∀ (db : List JournalEntry) (r : RemoteEntry), stableRow parse db r →
      stableRow parse (pullAllEntries parse rows db).1 r := by
  induction rows with
  | nil =>
    intro db r h
    simpa [pullAllEntries] using h
  | cons s rest ih =>
    intro db r h
    simp only [pullAllEntries]
    exact ih (mergeRemote parse db s).1 r
      (stableRow_mergeRemote_preserved parse db r s h)

/-- After a pull pass, every processed remote row is stable in the result. -/
theorem stableRow_after_pull (parse : String → Option Int)
    (rows : List RemoteEntry) :
    ∀ (db : List JournalEntry) (r : RemoteEntry), r ∈ rows →
      stableRow parse (pullAllEntries parse rows db).1 r := by
  induction rows with
  | nil =>
    intro db r hr
    cases hr
  | cons s rest ih =>
    intro db r hr
    simp only [pullAllEntries]
    rcases List.mem_cons.mp hr with h | h
    · subst h
      exact stableRow_pull_preserved parse rest _ r
        (stableRow_mergeRemote_self parse db r)
    · exact ih (mergeRemote parse db s).1 r h

/-- A pull pass over rows that are all stable performs no local write. -/
theorem pull_of_all_stable (parse : String → Option Int)
    (rows : List RemoteEntry) (db : List JournalEntry)
    (h : ∀ r ∈ rows, stableRow parse db r) :
    pullAllEntries parse rows db = (db, 0, 0) := by
  induction rows with
  | nil => rfl
  | cons s rest ih =>
    have hs : mergeRemote parse db s = (db, 0, 0) :=
      mergeRemote_of_stable parse db s (h s (List.mem_cons_self s rest))
    have ht : pullAllEntries parse rest db = (db, 0, 0) :=
      ih (fun r hr => h r (List.mem_cons_of_mem s hr))
    simp only [pullAllEntries, hs, ht]

/-- C2. Reconciliation is idempotent: after one pull pass, a second pull pass
over the same remote rows inserts no row and updates no row, and leaves the
local table unchanged (the pushes of the pass perform no local write). -/
theorem pullAllEntries_idempotent (parse : String → Option Int)
    (rows : List RemoteEntry) (db : List JournalEntry) :
    pullAllEntries parse rows (pullAllEntries parse rows db).1 =
      ((pullAllEntries parse rows db).1, 0, 0) :=
  pull_of_all_stable parse rows (pullAllEntries parse rows db).1
    (fun r hr => stableRow_after_pull parse rows db r hr)

/-- C1. For every remote record processed by pull-all: when no local row with
id = client_id exists, exactly one row is inserted, verbatim; when one exists,
the row is overwritten exactly when both updated-at timestamps parse and the
remote one is strictly greater, and is left unchanged otherwise (ties,
local ≥ remote, or an unparseable side). -/
theorem mergeRemote_spec (parse : String → Option Int)
    (db : List JournalEntry) (r : RemoteEntry) :
    (findEntry db r.client_id = none →
      mergeRemote parse db r = (db ++ [toLocalEntry r], 1, 0)) ∧
    (∀ e, findEntry db r.client_id = some e →
      ((∃ lt rt, parse e.updated_at = some lt ∧ parse r.updated_at = some rt ∧ lt < rt) →
          mergeRemote parse db r = (applyRemoteUpdate db r, 0, 1)) ∧
      ((¬ ∃ lt rt, parse e.updated_at = some lt ∧ parse r.updated_at = some rt ∧ lt < rt) →
          mergeRemote parse db r = (db, 0, 0))) := by
  refine ⟨fun hnone => ?_, fun e he => ⟨fun hlt => ?_, fun hnlt => ?_⟩⟩
  · simp [mergeRemote, hnone]
  · obtain ⟨lt, rt, hl, hr, hlr⟩ := hlt
    simp [mergeRemote, he, tsNewer, hl, hr, hlr]
  · have hguard : tsNewer parse e.updated_at r.updated_at = false := by
      unfold tsNewer
      cases hl : parse e.updated_at with
      | none => rfl
      | some l =>
        cases hr : parse r.updated_at with
        | none => rfl
        | some rv =>
          simp only [decide_eq_false_iff_not]
          intro hlr
          exact hnlt ⟨l, rv, hl, hr, hlr⟩
    simp [mergeRemote, he, hguard]

/-- Sample local row with id 7, updated at 2025-01-01. -/
def sampleLocal7 : JournalEntry :=
  { id := 7, title := "t", content := "a", date := "2025-01-01",
    created_at := "2025-01-01T00:00:00.000Z",
    updated_at := "2025-01-01T00:00:00.000Z" }

/-- Sample remote row with client id 7, updated at 2025-01-02. -/
def sampleRemote7 : RemoteEntry :=
  { client_id := 7, title := "t", content := "b", date := "2025-01-01",
    created_at := "2025-01-01T00:00:00.000Z",
    updated_at := "2025-01-02T00:00:00.000Z" }

/-- Sample local row with id 9, updated at 2025-01-03. -/
def sampleLocal9 : JournalEntry :=
  { id := 9, title := "t", content := "x", date := "2025-01-01",
    created_at := "2025-01-01T00:00:00.000Z",
    updated_at := "2025-01-03T00:00:00.000Z" }

/-- Sample remote row with client id 9, updated at 2025-01-03 (a tie with
sampleLocal9). -/
def sampleRemote9 : RemoteEntry :=
  { client_id := 9, title := "t", content := "y", date := "2025-01-01",
    created_at := "2025-01-01T00:00:00.000Z",
    updated_at := "2025-01-03T00:00:00.000Z" }

/-- Witness for C1: exercises all three branches of mergeRemote_spec on
concrete inputs (missing row → insert; strictly newer remote → overwrite;
tie → unchanged). -/
theorem mergeRemote_spec_witness :
    (mergeRemote isoTimestampVal [] sampleRemote7 =
      ([toLocalEntry sampleRemote7], 1, 0)) ∧
    (mergeRemote isoTimestampVal [sampleLocal7] sampleRemote7 =
      (applyRemoteUpdate [sampleLocal7] sampleRemote7, 0, 1)) ∧
    (mergeRemote isoTimestampVal [sampleLocal9] sampleRemote9 =
      ([sampleLocal9], 0, 0)) := by
  refine ⟨(mergeRemote_spec isoTimestampVal _ _).1 (by decide), ?_, ?_⟩
  · exact ((mergeRemote_spec isoTimestampVal _ _).2 sampleLocal7 (by decide)).1
      ⟨20250101000000000, 20250102000000000, by decide, by decide, by decide⟩
  · refine ((mergeRemote_spec isoTimestampVal _ _).2 sampleLocal9 (by decide)).2 ?_
    have h9 : isoTimestampVal sampleLocal9.updated_at = some 20250103000000000 := by decide
    have h9r : isoTimestampVal sampleRemote9.updated_at = some 20250103000000000 := by decide
    rintro ⟨lt, rt, hl, hr, hlr⟩
    obtain rfl : (20250103000000000 : Int) = lt := Option.some.inj (h9.symm.trans hl)
    obtain rfl : (20250103000000000 : Int) = rt := Option.some.inj (h9r.symm.trans hr)
    exact absurd hlr (by decide)

/-- The local journal store: the journal_entries table plus the SQLite
autoincrement counter that assigns lastInsertRowId. -/
structure LocalStore where
  entries : List JournalEntry
  nextId : Nat
deriving DecidableEq, Repr

/-- The payload of a single remote upsert (pushEntry in
src/database/sync.ts): the local id is reused as client_id. -/
structure PushPayload where
  client_id : Nat
  title : String
  content : String
  date : String
  created_at : String
  updated_at : String
deriving DecidableEq, Repr

/-- The remote calls the journal service can attempt after a local
mutation. -/
inductive RemoteCall where
  | pushEntryCall (p : PushPayload)
  | embedCall (client_id : Nat) (title content : String)
  | deleteEntryCall (client_id : Nat)
deriving DecidableEq, Repr

def isPushCall : RemoteCall → Bool
  | RemoteCall.pushEntryCall _ => true
  | _ => false

/-- pushEntry builds its upsert payload from the entry, with
client_id := entry.id. -/
def pushPayloadOf (e : JournalEntry) : PushPayload :=
  { client_id := e.id, title := e.title, content := e.content,
    date := e.date, created_at := e.created_at, updated_at := e.updated_at }

/-- INSERT INTO journal_entries (title, content, date, created_at,
updated_at): the row receives the autoincrement id, returned as
lastInsertRowId. -/
def insertNewEntry (store : LocalStore) (title content date now : String) :
    LocalStore × Nat :=
  let e : JournalEntry :=
    { id := store.nextId, title := title, content := content, date := date,
      created_at := now, updated_at := now }
  ({ entries := store.entries ++ [e], nextId := store.nextId + 1 }, store.nextId)

/-- createEntry (src/database/journalService.ts): insert locally; when a
session is active, attempt one pushEntry whose payload reuses the
lastInsertRowId as client_id, then (only when the push succeeded) attempt
the embedding call; push and embedding failures are caught and ignored.
Returns the store, the new local id, and the attempted remote calls. -/
def createEntry (session : Option String)
    (pushResult embedResult : Except String Unit) (store : LocalStore)
    (title content date now : String) : LocalStore × Nat × List RemoteCall :=
  let ins := insertNewEntry store title content date now
  match session with
  | none => (ins.1, ins.2, [])
  | some _ =>
    let entry : JournalEntry :=
      { id := ins.2, title := title, content := content, date := date,
        created_at := now, updated_at := now }
    match pushResult with
    | Except.error _ => (ins.1, ins.2, [RemoteCall.pushEntryCall (pushPayloadOf entry)])
    | Except.ok _ =>
      match embedResult with
      | _ => (ins.1, ins.2,
          [RemoteCall.pushEntryCall (pushPayloadOf entry),
           RemoteCall.embedCall ins.2 title content])

/-- UPDATE journal_entries SET title, content, updated_at WHERE id = ?. -/
def updateLocal (entries : List JournalEntry) (i : Nat)
    (title content now : String) : List JournalEntry :=
  entries.map (fun e =>
    if e.id == i then { e with title := title, content := content, updated_at := now }
    else e)

/-- updateEntry (src/database/journalService.ts): update locally; when a
session is active, re-read the row and attempt one pushEntry for it, then
(only when the push succeeded) the embedding call; failures are caught. -/
def updateEntry (session : Option String)
    (pushResult embedResult : Except String Unit) (store : LocalStore)
    (i : Nat) (title content now : String) : LocalStore × List RemoteCall :=
  let store1 : LocalStore := { store with entries := updateLocal store.entries i title content now }
  match session with
  | none => (store1, [])
  | some _ =>
    match findEntry store1.entries i with
    | none => (store1, [])
    | some updatedRow =>
      match pushResult with
      | Except.error _ => (store1, [RemoteCall.pushEntryCall (pushPayloadOf updatedRow)])
      | Except.ok _ =>
        match embedResult with
        | _ => (store1,
            [RemoteCall.pushEntryCall (pushPayloadOf updatedRow),
             RemoteCall.embedCall i updatedRow.title updatedRow.content])

/-- deleteEntry (src/database/journalService.ts): DELETE ... WHERE id = ?
locally; when a session is active, attempt one remote delete by client_id;
its failure is caught and ignored. -/
def deleteEntry (session : Option String) (deleteResult : Except String Unit)
    (store : LocalStore) (i : Nat) : LocalStore × List RemoteCall :=
  let store1 : LocalStore := { store with entries := store.entries.filter (fun e => !(e.id == i)) }
  match session with
  | none => (store1, [])
  | some _ =>
    match deleteResult with
    | _ => (store1, [RemoteCall.deleteEntryCall i])

/-- C4. With no active session createEntry attempts no remote call of any
kind; with an active session it issues exactly one push call, whose payload
client_id is the local identifier returned by the insert
(lastInsertRowId). -/
theorem createEntry_remote_calls (u : String)
    (pushResult embedResult : Except String Unit) (store : LocalStore)
    (title content date now : String) :
    ((createEntry none pushResult embedResult store title content date now).2.2 = []) ∧
    ((createEntry (some u) pushResult embedResult store title content date now).2.2.filter
        isPushCall =
      [RemoteCall.pushEntryCall
        { client_id :=
            (createEntry (some u) pushResult embedResult store title content date now).2.1,
          title := title, content := content, date := date,
          created_at := now, updated_at := now }]) := by
  constructor
  · rfl
  · cases pushResult with
    | error m => simp [createEntry, insertNewEntry, pushPayloadOf, isPushCall]
    | ok v => simp [createEntry, insertNewEntry, pushPayloadOf, isPushCall]

/-- C5. A failing remote push or remote delete after a committed local
mutation neither undoes the local mutation nor changes the return value:
with any error outcome, createEntry still returns the assigned local id and
leaves the store exactly as the local insert did, and updateEntry and
deleteEntry leave the store exactly as the local UPDATE and DELETE did. -/
theorem remote_failure_leaves_local_state (u msg : String)
    (embedResult : Except String Unit) (store : LocalStore)
    (title content date now : String) (i : Nat) :
    ((createEntry (some u) (Except.error msg) embedResult store title content date now).1 =
      (insertNewEntry store title content date now).1) ∧
    ((createEntry (some u) (Except.error msg) embedResult store title content date now).2.1 =
      store.nextId) ∧
    ((updateEntry (some u) (Except.error msg) embedResult store i title content now).1 =
      { store with entries := updateLocal store.entries i title content now }) ∧
    ((deleteEntry (some u) (Except.error msg) store i).1 =
      { store with entries := store.entries.filter (fun e => !(e.id == i)) }) := by
  refine ⟨rfl, rfl, ?_, rfl⟩
  simp only [updateEntry]
  cases hf : findEntry (updateLocal store.entries i title content now) i <;>
    simp [hf]

/-- A journal entry of the Redux journal slice (src/types/journal.ts). -/
structure ReduxJournalEntry where
  id : String
  date : String
  title : Option String
  content : String
  createdAt : String
  updatedAt : String
  mood : Option String
  tags : Option (List String)
deriving DecidableEq, Repr

/-- The Redux journal slice state (src/store/slices/journalSlice.ts),
entries keyed by date. -/
structure JournalUIState where
  entries : List (String × ReduxJournalEntry)
  currentDate : String
  isLoading : Bool
  searchQuery : String
  filteredEntries : List ReduxJournalEntry
deriving DecidableEq, Repr

/-- The clearAllEntries reducer of the journal slice. -/
def clearAllEntriesReducer (st : JournalUIState) : JournalUIState :=
  { st with entries := [], filteredEntries := [], searchQuery := "" }

/-- The personalization settings of the settings slice
(src/store/slices/settingsSlice.ts). -/
structure PersonalizationSettings where
  backgroundStyle : String
  fontFamily : String
  fontSize : Int
  lineHeight : Rat
  theme : String
  backgroundColor : String
  textColor : String
  accentColor : String
  lineColor : String
  hapticFeedback : Bool
  autoSave : Bool
  showWordCount : Bool
  showDateInHeader : Bool
  textPadding : Int
  cornerRadius : Int
  showWritingStats : Bool
deriving DecidableEq, Repr

/-- defaultPersonalization of the settings slice. -/
def defaultPersonalization : PersonalizationSettings :=
  { backgroundStyle := "lined", fontFamily := "default", fontSize := 16,
    lineHeight := (3 : Rat) / 2, theme := "auto",
    backgroundColor := "#FFFFFF", textColor := "#1A1A1A",
    accentColor := "#007AFF", lineColor := "#E5E5E7",
    hapticFeedback := true, autoSave := true, showWordCount := true,
    showDateInHeader := true, textPadding := 20, cornerRadius := 8,
    showWritingStats := false }

/-- The settings slice state. -/
structure SettingsState where
  personalization : PersonalizationSettings
  onboardingCompleted : Bool
deriving DecidableEq, Repr

/-- The resetToDefaults reducer of the settings slice: it resets the
personalization settings to defaultPersonalization. -/
def resetToDefaultsReducer (st : SettingsState) : SettingsState :=
  { st with personalization := defaultPersonalization }

/-- A row of the local reports table (src/database/reportsService.ts). -/
structure Report where
  id : Nat
  title : String
  content : String
  prompt : String
  type : String
  status : String
  createdAt : String
  updatedAt : String
deriving DecidableEq, Repr

/-- The local application state touched by AuthProvider.signOut: the two
SQLite tables, the two Redux slices, and the persisted-storage keys. -/
structure AppState where
  journalTable : List JournalEntry
  reportsTable : List Report
  journalUI : JournalUIState
  settings : SettingsState
  storageKeys : List String
deriving DecidableEq, Repr

/-- AuthProvider.signOut: attempt the remote sign-out (its failure is caught
and ignored), then DELETE FROM journal_entries, DELETE FROM reports,
dispatch clearAllEntries and resetToDefaults, and remove the persisted
journal and settings keys. -/
def signOut (remoteResult : Except String Unit) (s : AppState) : AppState :=
  match remoteResult with
  | _ =>
    { s with
      journalTable := []
      reportsTable := []
      journalUI := clearAllEntriesReducer s.journalUI
      settings := resetToDefaultsReducer s.settings
      storageKeys := s.storageKeys.filter
        (fun k => !(k == "persist:journal" || k == "persist:settings")) }

/-- C3. After signOut completes, the journal_entries table and the reports
table are both empty, whether the remote sign-out call succeeded or
failed. -/
theorem signOut_clears_tables (remoteResult : Except String Unit)
    (s : AppState) :
    (signOut remoteResult s).journalTable = [] ∧
    (signOut remoteResult s).reportsTable = [] := by
  cases remoteResult <;> exact ⟨rfl, rfl⟩

/-- A concrete app state whose personalization settings differ from the
defaults (font size 20 instead of 16). -/
def sampleAppState : AppState :=
  { journalTable := []
    reportsTable := []
    journalUI := { entries := [], currentDate := "2025-01-01",
                   isLoading := false, searchQuery := "", filteredEntries := [] }
    settings := { personalization := { defaultPersonalization with fontSize := 20 },
                  onboardingCompleted := true }
    storageKeys := ["persist:journal", "persist:settings"] }

/-- Counterexample to C8: signOut dispatches resetToDefaults, so a
personalization state that differs from the defaults (font size 20) is not
left unchanged by signOut. -/
theorem signOut_settings_counterexample :
    (signOut (Except.ok ()) sampleAppState).settings.personalization ≠
      sampleAppState.settings.personalization := by
  intro h
  have h2 := congrArg PersonalizationSettings.fontSize h
  simp [signOut, sampleAppState, resetToDefaultsReducer,
    defaultPersonalization] at h2

/-- C8 (amended). signOut clears the journal-domain UI state and resets the
personalization settings to their defaults (rather than leaving them
unchanged): after signOut the personalization settings equal
defaultPersonalization for every prior state, and the journal UI entries are
cleared. -/
theorem signOut_resets_personalization (remoteResult : Except String Unit)
    (s : AppState) :
    (signOut remoteResult s).settings.personalization = defaultPersonalization ∧
    (signOut remoteResult s).journalUI.entries = [] := by
  cases remoteResult <;> exact ⟨rfl, rfl⟩

/-- The once-per-user marker logic of AuthProvider: on each session change,
the first effect starts a reconciliation only when a user is present and
differs from lastPushedUserIdRef, updating the marker; the second effect
clears the marker when the session has no user. Returns the new marker and
whether a reconciliation run was started. -/
def observerStep (last : Option String) (sess : Option String) :
    Option String × Bool :=
  match sess with
  | none => (none, false)
  | some uid => if last == some uid then (some uid, false) else (some uid, true)

/-- Run the observer over a list of session-change events, collecting the
user ids for which a reconciliation run was started, in order. -/
def triggeredUsers (last : Option String) (evs : List (Option String)) :
    List String :=
  match evs with
  | [] => []
  | e :: rest =>
    let st := observerStep last e
    match e, st.2 with
    | some uid, true => uid :: triggeredUsers st.1 rest
    | _, _ => triggeredUsers st.1 rest

/-- Counterexample to C7: with no signed-out state anywhere in the sequence,
the event sequence signed-in(a), signed-in(b), signed-in(a) starts a
reconciliation run for user a twice — the marker only remembers the most
recent user, so "at most once per distinct user id between signed-out
states" fails. -/
theorem observer_retrigger_counterexample :
    triggeredUsers none [some "a", some "b", some "a"] = ["a", "b", "a"] ∧
    List.count "a" (triggeredUsers none [some "a", some "b", some "a"]) = 2 ∧
    List.count none [some "a", some "b", some "a"] = 0 := by
  refine ⟨rfl, ?_, ?_⟩ <;> decide

/-- C7 (amended). A reconciliation run is started exactly when the event
carries a user id different from the marker; the marker then holds that user
id, and a signed-out event starts nothing and clears the marker. Hence the
same user never triggers twice in a row and a sign-in after a sign-out
triggers again, but within one signed-in span the same user can trigger more
than once when a different user signs in in between. -/
theorem observerStep_spec (last : Option String) (uid : String) :
    observerStep last none = (none, false) ∧
    (observerStep last (some uid)).1 = some uid ∧
    (observerStep last (some uid)).2 = !(last == some uid) := by
  refine ⟨rfl, ?_, ?_⟩ <;>
    cases hl : (last == some uid) <;> simp [observerStep, hl]

/-- The steps of the sign-in reconciliation flow; pullReportsStep exists in
the vocabulary but is never emitted by the observed code path. -/
inductive SyncStep where
  | pushEntriesStep
  | pushReportsStep
  | pullEntriesStep
  | pullReportsStep
deriving DecidableEq, Repr

/-- The state threaded through one reconciliation run: the local table, the
steps attempted so far, and the logged warnings. -/
structure SyncRun where
  db : List JournalEntry
  trace : List SyncStep
  warnings : List String
deriving DecidableEq, Repr

/-- try step catch warn: the step is attempted; a failure only appends a
warning and never aborts the flow. -/
def attemptStep (run : SyncRun) (step : SyncStep)
    (outcome : Except String Unit) : SyncRun :=
  match outcome with
  | Except.ok _ => { run with trace := run.trace ++ [step] }
  | Except.error e =>
    { run with trace := run.trace ++ [step], warnings := run.warnings ++ [e] }

/-- The reconciliation effect of AuthProvider on a signed-out → signed-in
transition: try pushAllEntries, try pushAllReports, try pullAllEntries, each
failure caught and logged. The remote select of the pull either fails (no
local write) or yields the remote rows which are merged locally. -/
def reconcileOnSignIn (parse : String → Option Int)
    (pushEntriesOutcome pushReportsOutcome : Except String Unit)
    (pullSelect : Except String (List RemoteEntry))
    (db : List JournalEntry) : SyncRun :=
  let r0 : SyncRun := { db := db, trace := [], warnings := [] }
  let r1 := attemptStep r0 SyncStep.pushEntriesStep pushEntriesOutcome
  let r2 := attemptStep r1 SyncStep.pushReportsStep pushReportsOutcome
  match pullSelect with
  | Except.error e =>
    { r2 with trace := r2.trace ++ [SyncStep.pullEntriesStep],
              warnings := r2.warnings ++ [e] }
  | Except.ok rows =>
    { r2 with db := (pullAllEntries parse rows r2.db).1,
              trace := r2.trace ++ [SyncStep.pullEntriesStep] }

/-- C6. On every signed-out → signed-in transition the reconciliation
sequence runs in exactly the order push-all entries, push-all reports,
pull-all entries, whatever the outcome of each step (an earlier failure does
not prevent the later steps), and reports are never pulled in this flow. -/
theorem reconcileOnSignIn_order (parse : String → Option Int)
    (pushEntriesOutcome pushReportsOutcome : Except String Unit)
    (pullSelect : Except String (List RemoteEntry))
    (db : List JournalEntry) :
    (reconcileOnSignIn parse pushEntriesOutcome pushReportsOutcome
        pullSelect db).trace =
      [SyncStep.pushEntriesStep, SyncStep.pushReportsStep,
       SyncStep.pullEntriesStep] ∧
    List.count SyncStep.pullReportsStep
      (reconcileOnSignIn parse pushEntriesOutcome pushReportsOutcome
        pullSelect db).trace = 0 := by
  cases pushEntriesOutcome <;> cases pushReportsOutcome <;>
    cases pullSelect <;> exact ⟨rfl, rfl⟩

/-- C9 (amended). Updated-at under local mutations: a merge-overwrite by
pull-all happens only when both timestamps parse and the remote one is
strictly greater, and it stores the remote row, so updated-at strictly
advances; updateEntry sets updated-at of the matching row to the clock value
supplied at call time, without comparing it to the previous value — it
advances exactly when the clock reading is not earlier than the stored
timestamp, which the code does not itself enforce. -/
theorem updatedAt_advance_amended (parse : String → Option Int)
    (db : List JournalEntry) (r : RemoteEntry) (e : JournalEntry)
    (entries : List JournalEntry) (i : Nat) (title content now : String)
    (e1 : JournalEntry) :
    (findEntry db r.client_id = some e → (mergeRemote parse db r).2.2 = 1 →
      (∃ lt rt, parse e.updated_at = some lt ∧
        parse r.updated_at = some rt ∧ lt < rt) ∧
      findEntry (mergeRemote parse db r).1 r.client_id =
        some (overwriteFromRemote e r)) ∧
    (e1 ∈ updateLocal entries i title content now → e1.id = i →
      e1.updated_at = now) := by
  constructor
  · intro hf hd
    cases hg : tsNewer parse e.updated_at r.updated_at with
    | false =>
      have : (mergeRemote parse db r).2.2 = 0 := by simp [mergeRemote, hf, hg]
      omega
    | true =>
      refine ⟨(tsNewer_true_iff parse e.updated_at r.updated_at).mp hg, ?_⟩
      rw [mergeRemote_fst_of_newer parse db r e hf hg,
        findEntry_applyRemoteUpdate_eq db r, hf]
      rfl
  · intro hmem hid
    unfold updateLocal at hmem
    rcases List.mem_map.mp hmem with ⟨e0, he0, heq⟩
    by_cases hc : (e0.id == i) = true
    · rw [if_pos hc] at heq
      rw [← heq]
    · rw [if_neg hc] at heq
      rw [← heq] at hid
      exact absurd (by simpa using hid) (by simpa using hc)

/-- The row produced by updateLocal on sampleLocal7 with a later clock. -/
def updatedSample7 : JournalEntry :=
  { sampleLocal7 with
      title := "t2"
      content := "c2"
      updated_at := "2025-01-04T00:00:00.000Z" }

/-- Witness for the amended C9: a concrete merge-overwrite whose timestamps
strictly advance, and a concrete updateLocal row whose updated-at equals the
supplied clock value. -/
theorem updatedAt_advance_witness :
    ((∃ lt rt, isoTimestampVal sampleLocal7.updated_at = some lt ∧
        isoTimestampVal sampleRemote7.updated_at = some rt ∧ lt < rt) ∧
      findEntry (mergeRemote isoTimestampVal [sampleLocal7] sampleRemote7).1
          sampleRemote7.client_id =
        some (overwriteFromRemote sampleLocal7 sampleRemote7)) ∧
    updatedSample7.updated_at = "2025-01-04T00:00:00.000Z" := by
  have T := updatedAt_advance_amended isoTimestampVal [sampleLocal7]
    sampleRemote7 sampleLocal7 [sampleLocal7] 7 "t2" "c2"
    "2025-01-04T00:00:00.000Z" updatedSample7
  exact ⟨T.1 (by decide) (by decide), T.2 (by decide) rfl⟩

/-- A local row whose stored updated-at is 2025-01-02. -/
def entryC9 : JournalEntry :=
  { id := 1, title := "t", content := "c", date := "2025-01-01",
    created_at := "2025-01-01T00:00:00.000Z",
    updated_at := "2025-01-02T00:00:00.000Z" }

/-- The store holding entryC9. -/
def storeC9 : LocalStore := { entries := [entryC9], nextId := 2 }

/-- Counterexample to C9: updateEntry sets updated-at to the supplied clock
value unconditionally, so with a clock reading of 2025-01-01T12:00 against a
stored updated-at of 2025-01-02T00:00 the field strictly decreases (the old
timestamp is strictly newer than the new one). -/
theorem updateEntry_clock_counterexample :
    ((updateEntry none (Except.ok ()) (Except.ok ()) storeC9 1 "t" "c"
        "2025-01-01T12:00:00.000Z").1.entries.map (fun e => e.updated_at)) =
      ["2025-01-01T12:00:00.000Z"] ∧
    tsNewer isoTimestampVal "2025-01-01T12:00:00.000Z"
        "2025-01-02T00:00:00.000Z" = true := by
  exact ⟨rfl, by decide⟩

/-- The parameters of generateAIReport (src/services/backend.ts). -/
structure GenerateReportParams where
  prompt : String
  userId : Option String
  preferredAnalysisTypes : List String
  dateRangeDays : Option Int
  matchCount : Option Int
  userToken : Option String
deriving DecidableEq, Repr

/-- The structured report returned by the backend. -/
structure AIReport where
  title : String
  summary : String
  key_insights : List String
  recommendations : List String
  mood_analysis : Option String
  keywords : Option (List String)
  entries_analyzed : Int
  confidence_score : Rat
  prompt_used : String
deriving DecidableEq, Repr

/-- The response shape of generateAIReport. -/
structure AIReportResponse where
  success : Bool
  report : Option AIReport
  error_message : Option String
  processing_time_seconds : Option Rat
deriving DecidableEq, Repr

/-- The request body generateAIReport posts, after clamping. -/
structure RequestBody where
  prompt : String
  user_id : String
  preferred_analysis_types : List String
  date_range_days : Int
  user_token : String
  match_count : Int
deriving DecidableEq, Repr

/-- Math.min(hi, Math.max(lo, x)). -/
def clampInt (lo hi x : Int) : Int := min hi (max lo x)

/-- Body construction of generateAIReport: slice the prompt to 500, keep at
most 3 analysis types, clamp the ranges, resolve the token from the session
when the given one is null or empty (the !token check). -/
def buildRequestBody (p : GenerateReportParams)
    (sessionToken : Option String) : RequestBody :=
  let token : Option String :=
    match p.userToken with
    | some t => if t == "" then sessionToken else some t
    | none => sessionToken
  { prompt := p.prompt.take 500
    user_id := p.userId.getD "anonymous"
    preferred_analysis_types := p.preferredAnalysisTypes.take 3
    date_range_days := clampInt 1 365 (p.dateRangeDays.getD 30)
    user_token := token.getD ""
    match_count := clampInt 1 50 (p.matchCount.getD 10) }

/-- Every outcome of the transport part of generateAIReport: the fetch threw
(network failure or abort), the response was non-2xx, the response was 2xx
but its body failed to parse as JSON, or the response was 2xx with a parsed
body. -/
inductive TransportOutcome where
  | netErr (name msg : String)
  | httpErr (status : Nat) (text : String)
  | httpOkBadJson (name msg : String)
  | httpOk (resp : AIReportResponse)
deriving Repr

/-- The catch clause of generateAIReport:
AbortError → "Network timeout", otherwise err.message or the fallback. -/
def catchMessage (name msg : String) : String :=
  if name == "AbortError" then "Network timeout"
  else if msg == "" then "Network request failed" else msg

/-- The non-2xx message: HTTP status, plus up to 200 characters of body. -/
def httpErrorMessage (status : Nat) (text : String) : String :=
  "HTTP " ++ toString status ++ (if text == "" then "" else ": " ++ text.take 200)

/-- generateAIReport (src/services/backend.ts): builds the body, performs
the POST, and maps every transport outcome to a response value — it never
throws. Only a 2xx response with a parsed body is returned as-is. -/
def generateAIReport (p : GenerateReportParams) (sessionToken : Option String)
    (o : TransportOutcome) : AIReportResponse :=
  let body := buildRequestBody p sessionToken
  match body, o with
  | _, TransportOutcome.netErr name msg =>
    { success := false, report := none,
      error_message := some (catchMessage name msg),
      processing_time_seconds := none }
  | _, TransportOutcome.httpErr status text =>
    { success := false, report := none,
      error_message := some (httpErrorMessage status text),
      processing_time_seconds := none }
  | _, TransportOutcome.httpOkBadJson name msg =>
    { success := false, report := none,
      error_message := some (catchMessage name msg),
      processing_time_seconds := none }
  | _, TransportOutcome.httpOk resp => resp

theorem catchMessage_nonempty (name msg : String) :
    (catchMessage name msg == "") = false := by
  unfold catchMessage
  by_cases h1 : (name == "AbortError") = true
  · rw [if_pos h1]
    rfl
  · rw [if_neg h1]
    by_cases h2 : (msg == "") = true
    · rw [if_pos h2]
      rfl
    · rw [if_neg h2]
      simpa using h2

theorem httpErrorMessage_nonempty (status : Nat) (text : String) :
    (httpErrorMessage status text == "") = false := by
  rw [beq_eq_false_iff_ne]
  intro h
  have hlen : (httpErrorMessage status text).length = 0 := by
    rw [h]
    rfl
  unfold httpErrorMessage at hlen
  rw [String.length_append, String.length_append] at hlen
  have h5 : ("HTTP " : String).length = 5 := rfl
  rw [h5] at hlen
  omega

/-- C10. generateAIReport is total over its inputs and every transport
outcome: each failure outcome (network error or abort, non-2xx status, or an
unparseable 2xx body) yields a response with success = false, a report of
none, and a non-empty error message; a parsed 2xx body is returned
verbatim, so only a successful HTTP response yields the parsed report. -/
theorem generateAIReport_total (p : GenerateReportParams)
    (sessionToken : Option String) (name msg text : String) (status : Nat)
    (resp : AIReportResponse) :
    ((generateAIReport p sessionToken (TransportOutcome.netErr name msg)).success = false ∧
     (generateAIReport p sessionToken (TransportOutcome.netErr name msg)).report = none ∧
     ((generateAIReport p sessionToken
        (TransportOutcome.netErr name msg)).error_message.getD "" == "") = false) ∧
    ((generateAIReport p sessionToken (TransportOutcome.httpErr status text)).success = false ∧
     (generateAIReport p sessionToken (TransportOutcome.httpErr status text)).report = none ∧
     ((generateAIReport p sessionToken
        (TransportOutcome.httpErr status text)).error_message.getD "" == "") = false) ∧
    ((generateAIReport p sessionToken (TransportOutcome.httpOkBadJson name msg)).success = false ∧
     (generateAIReport p sessionToken (TransportOutcome.httpOkBadJson name msg)).report = none ∧
     ((generateAIReport p sessionToken
        (TransportOutcome.httpOkBadJson name msg)).error_message.getD "" == "") = false) ∧
    (generateAIReport p sessionToken (TransportOutcome.httpOk resp) = resp) := by
  refine ⟨⟨rfl, rfl, ?_⟩, ⟨rfl, rfl, ?_⟩, ⟨rfl, rfl, ?_⟩, rfl⟩
  · exact catchMessage_nonempty name msg
  · exact httpErrorMessage_nonempty status text
  · exact catchMessage_nonempty name msg
